import Mathlib

/-!
Verification of the File-Backup repository (a watchdog-based file copier).

The development shallowly embeds the core modules:
  * `src/src/file_handler.py` — `ProgressBar.update`, `copy_with_progress`,
    `FileHandler.on_modified`, `FileHandler._handle_file_event`,
    `FileHandler._copy_file`;
  * `src/src/file_monitor.py` — `FileMonitor.show_menu`,
    `FileMonitor.change_source_folder`, `FileMonitor.start_monitoring`,
    `FileMonitor.stop`;
  * `src/src/utils.py` — `validate_folder_name`, `get_valid_folder_name`;
  * the legacy duplicate `src/file_copier.py` where it differs (its
    `FileHandler.on_created` override).

File contents are lists of bytes (`List Nat`).  Paths are `String`s.
Side effects (set mutation, directory creation, stat calls, chunk writes,
progress reports, metadata propagation, log lines) are recorded as explicit
action traces so that ordering and exactly-once properties can be stated.
Wall-clock sleeps (`time.sleep(1)` / `time.sleep(0.5)`) have no observable
effect beyond ordering and are not reified; the two `stat` results around the
0.5 s delay are supplied by an environment record.  Exceptions are modelled
as `Option String` / `Except String` values threaded through the embedding.
-/

/-- Observable side effects of the event-handling and copy pipeline in
`src/src/file_handler.py`.  `insert`/`remove` are mutations of
`FileHandler.processing_files`; the rest are file I/O and log lines. -/
inductive FsAction where
  | insert (p : String)
  | remove (p : String)
  | mkdirDest
  | statSize (n : Nat)
  | logStart (t name : String)
  | writeChunk (c : List Nat)
  | report (n : Nat)
  | copystat
  | logSuccess (t name : String)
  | logError (t name msg : String)
deriving DecidableEq

/-- The `while True` loop of `copy_with_progress` (src/src/file_handler.py,
lines 61-84): read up to `cs` bytes (`fsrc.read(chunk_size)`), stop on an
empty read, otherwise write the chunk, add its length to `copied_size` and
report the new cumulative total (`progress.update(copied_size)`). -/
def copyChunksActs (cs : Nat) (rest : List Nat) (copied : Nat) : List FsAction :=
  if rest.take cs = [] then []
  else
    FsAction.writeChunk (rest.take cs) ::
      FsAction.report (copied + (rest.take cs).length) ::
      copyChunksActs cs (rest.drop cs) (copied + (rest.take cs).length)
termination_by rest.length
decreasing_by
  rename_i h
  simp only [List.length_drop]
  rw [List.take_eq_nil_iff] at h
  push_neg at h
  have : 0 < rest.length := List.length_pos.mpr h.2
  omega

/-- `copy_with_progress(src, dst, chunk_size=8192)`: stream the source
content in chunks, then `shutil.copystat(src, dst)` after the loop. -/
def copy_with_progress (content : List Nat) (chunk_size : Nat := 8192) : List FsAction :=
  copyChunksActs chunk_size content 0 ++ [FsAction.copystat]

/-- The chunks written to the destination, in order. -/
def writesOf (l : List FsAction) : List (List Nat) :=
  l.filterMap fun a => match a with | FsAction.writeChunk c => some c | _ => none

/-- The cumulative byte counts passed to `progress.update`, in order. -/
def reportsOf (l : List FsAction) : List Nat :=
  l.filterMap fun a => match a with | FsAction.report n => some n | _ => none

/-- Running cumulative totals: starting from `c` bytes already copied, the
total after each successive chunk. -/
def expectedReports : List (List Nat) → Nat → List Nat
  | [], _ => []
  | ch :: rest, c => (c + ch.length) :: expectedReports rest (c + ch.length)

/-- The sizes of the successive chunks a file of `n` bytes is split into at
chunk size `cs`: full `cs`-byte chunks followed by one final short chunk. -/
def chunkLengths (cs n : Nat) : List Nat :=
  if cs = 0 ∨ n = 0 then []
  else if n ≤ cs then [n]
  else cs :: chunkLengths cs (n - cs)
termination_by n
decreasing_by
  rename_i h _
  push_neg at h
  omega

theorem writesOf_copyChunksActs_flatten (cs : Nat) (hcs : 0 < cs) (l : List Nat) (c : Nat) :
    (writesOf (copyChunksActs cs l c)).flatten = l := by
  induction l, c using copyChunksActs.induct cs with
  | case1 l c h =>
    rw [List.take_eq_nil_iff] at h
    rcases h with h | h
    · omega
    · subst h
      rw [copyChunksActs]
      simp [writesOf]
  | case2 l c h ih =>
    rw [copyChunksActs, if_neg h]
    simp only [writesOf, List.filterMap_cons] at *
    simp only [List.flatten_cons]
    rw [ih]
    exact List.take_append_drop cs l

theorem writesOf_copyChunksActs_lengths (cs : Nat) (hcs : 0 < cs) (l : List Nat) (c : Nat) :
    (writesOf (copyChunksActs cs l c)).map List.length = chunkLengths cs l.length := by
  induction l, c using copyChunksActs.induct cs with
  | case1 l c h =>
    rw [List.take_eq_nil_iff] at h
    rcases h with h | h
    · omega
    · subst h
      rw [copyChunksActs]
      simp [writesOf, chunkLengths]
  | case2 l c h ih =>
    rw [copyChunksActs, if_neg h]
    simp only [writesOf, List.filterMap_cons] at *
    simp only [List.map_cons]
    rw [ih]
    have hl : l ≠ [] := by
      intro he; rw [List.take_eq_nil_iff] at h; exact h (Or.inr he)
    have hlp : 0 < l.length := List.length_pos.mpr hl
    have hnot : ¬(cs = 0 ∨ l.length = 0) := by omega
    conv_rhs => rw [chunkLengths]
    rw [if_neg hnot]
    simp only [List.length_take, List.length_drop]
    by_cases hle : l.length ≤ cs
    · rw [if_pos hle]
      have h1 : min cs l.length = l.length := by omega
      have h2 : l.length - cs = 0 := by omega
      rw [h1, h2]
      rw [chunkLengths]
      simp
    · rw [if_neg hle]
      have h1 : min cs l.length = cs := by omega
      rw [h1]

theorem reportsOf_copyChunksActs (cs : Nat) (l : List Nat) (c : Nat) :
    reportsOf (copyChunksActs cs l c) = expectedReports (writesOf (copyChunksActs cs l c)) c := by
  induction l, c using copyChunksActs.induct cs with
  | case1 l c h =>
    rw [copyChunksActs, if_pos h]
    simp [writesOf, reportsOf, expectedReports]
  | case2 l c h ih =>
    rw [copyChunksActs, if_neg h]
    simp only [writesOf, reportsOf, List.filterMap_cons] at *
    simp only [expectedReports]
    rw [ih]

theorem copystat_not_mem_copyChunksActs (cs : Nat) (l : List Nat) (c : Nat) :
    FsAction.copystat ∉ copyChunksActs cs l c := by
  induction l, c using copyChunksActs.induct cs with
  | case1 l c h =>
    rw [copyChunksActs, if_pos h]
    simp
  | case2 l c h ih =>
    rw [copyChunksActs, if_neg h]
    simp only [List.mem_cons]
    rintro (h1 | h1 | h1)
    · exact FsAction.noConfusion h1
    · exact FsAction.noConfusion h1
    · exact ih h1

/-- `ProgressBar.update(current_size)` (src/src/file_handler.py, lines 30-59)
with `total_size` fixed at construction.  The method computes
`percentage = min(100, int((current_size / total_size) * 100))` and
`filled_width = int(width * current_size / total_size)` (width 50); both
divide by `total_size`, so a zero `total_size` raises `ZeroDivisionError`,
modelled as the error branch.  Real division is modelled exactly on naturals
(floating-point rounding is ignored); the speed string and console printing
are observational only and not modelled. -/
def ProgressBar.update (total_size current_size : Nat) : Except String (Nat × Nat) :=
  if total_size = 0 then Except.error "ZeroDivisionError"
  else Except.ok (min 100 (current_size * 100 / total_size), 50 * current_size / total_size)

/-- The same chunk loop as `copyChunksActs`, but actually evaluating each
`progress.update(copied_size)` call: an update error aborts the loop (the
exception would propagate out of `copy_with_progress`).  Returns the chunks
written and the (percentage, filled_width) pairs produced by the updates. -/
def copyLoopRun (total cs : Nat) (rest : List Nat) (copied : Nat) :
    Except String (List (List Nat) × List (Nat × Nat)) :=
  if rest.take cs = [] then Except.ok ([], [])
  else
    match ProgressBar.update total (copied + (rest.take cs).length) with
    | Except.error e => Except.error e
    | Except.ok line =>
      match copyLoopRun total cs (rest.drop cs) (copied + (rest.take cs).length) with
      | Except.error e => Except.error e
      | Except.ok (ws, ls) => Except.ok (rest.take cs :: ws, line :: ls)
termination_by rest.length
decreasing_by
  rename_i h
  simp only [List.length_drop]
  rw [List.take_eq_nil_iff] at h
  push_neg at h
  have : 0 < rest.length := List.length_pos.mpr h.2
  omega

/-- `copy_with_progress` with the progress callback evaluated:
`total_size = os.path.getsize(src)` is the source length, the progress bar is
constructed with it, and the loop runs at chunk size 8192. -/
def copy_with_progress_run (content : List Nat) :
    Except String (List (List Nat) × List (Nat × Nat)) :=
  copyLoopRun content.length 8192 content 0

theorem copyLoopRun_ok (total cs : Nat) (htot : total ≠ 0) (rest : List Nat) (copied : Nat) :
    ∃ r, copyLoopRun total cs rest copied = Except.ok r := by
  induction rest, copied using copyLoopRun.induct total cs with
  | case1 rest copied h =>
    rw [copyLoopRun, if_pos h]
    exact ⟨_, rfl⟩
  | case2 rest copied h e he =>
    rw [ProgressBar.update, if_neg htot] at he
    exact absurd he (by simp)
  | case3 rest copied h line hline e he ih =>
    rcases ih with ⟨r, hr⟩
    rw [hr] at he
    exact absurd he (by simp)
  | case4 rest copied h line hline ws ls hrec ih =>
    rw [copyLoopRun, if_neg h, hline, hrec]
    exact ⟨_, rfl⟩

/-- `source_path.name` (pathlib): the final path component. -/
def fileName (p : String) : String := (p.splitOn "/").getLastD ""

/-- Environment for one run of `FileHandler._copy_file`
(src/src/file_handler.py, lines 141-177).  It fixes the outcomes of the
external-world interactions in source order: the timestamp string computed by
`datetime.now().strftime`, whether `self.destination_dir.mkdir(...)` raises,
the two `source_path.stat().st_size` results around the 0.5 s delay (each can
itself raise), the source bytes streamed by `copy_with_progress`, whether the
chunk loop raises part-way (after `k` successful chunks), and whether
`shutil.copystat` raises. -/
structure CopyEnv where
  now : String
  mkdirFail : Option String
  stat1 : Except String Nat
  stat2 : Except String Nat
  content : List Nat
  copyFail : Option (Nat × String)
  copystatFail : Option String

/-- The `try` block of `FileHandler._copy_file`: sleep 1 s, `mkdir` the
destination (parents, exist_ok), stat the source, sleep 0.5 s, stat again; if
the two sizes differ return without copying ("file is still being written
to"); otherwise print the start line and run `copy_with_progress`, then print
the success lines and `logging.info`.  The result pairs the actions performed
with the exception (if any) escaping the block. -/
def copyBody (env : CopyEnv) (p : String) : List FsAction × Option String :=
  match env.mkdirFail with
  | some e => ([], some e)
  | none =>
    match env.stat1 with
    | Except.error e => ([FsAction.mkdirDest], some e)
    | Except.ok s1 =>
      match env.stat2 with
      | Except.error e => ([FsAction.mkdirDest, FsAction.statSize s1], some e)
      | Except.ok s2 =>
        if s1 ≠ s2 then
          ([FsAction.mkdirDest, FsAction.statSize s1, FsAction.statSize s2], none)
        else
          match env.copyFail with
          | some (k, e) =>
            ([FsAction.mkdirDest, FsAction.statSize s1, FsAction.statSize s2,
              FsAction.logStart env.now (fileName p)] ++
              (copyChunksActs 8192 env.content 0).take (2 * k), some e)
          | none =>
            match env.copystatFail with
            | some e =>
              ([FsAction.mkdirDest, FsAction.statSize s1, FsAction.statSize s2,
                FsAction.logStart env.now (fileName p)] ++
                copyChunksActs 8192 env.content 0, some e)
            | none =>
              ([FsAction.mkdirDest, FsAction.statSize s1, FsAction.statSize s2,
                FsAction.logStart env.now (fileName p)] ++
                copy_with_progress env.content ++
                [FsAction.logSuccess env.now (fileName p)], none)

/-- `FileHandler._copy_file` in full: the `try` block wrapped in
`except Exception as e`, which prints and logs the error and swallows the
exception.  The second component is the exception escaping `_copy_file`
itself — always `none`, because the handler catches `Exception`. -/
def copyFile (env : CopyEnv) (p : String) : List FsAction × Option String :=
  match copyBody env p with
  | (acts, some e) => (acts ++ [FsAction.logError env.now (fileName p) e], none)
  | (acts, none) => (acts, none)

/-- `FileHandler._handle_file_event(source_path, event_type)`
(src/src/file_handler.py, lines 120-139): if the path is already in
`processing_files`, return (drop the event); otherwise add it, run
`_copy_file`, and remove it in the `finally` block.  Returns the resulting
set, the action trace, and the exception escaping the handler (if any). -/
def handleFileEvent (st : List String) (p : String) (env : CopyEnv) :
    List String × List FsAction × Option String :=
  if p ∈ st then (st, [], none)
  else
    match copyFile env p with
    | (acts, exn) => ((p :: st).erase p, FsAction.insert p :: acts ++ [FsAction.remove p], exn)

/-- A watchdog file-system event: its source path and directory flag. -/
structure FileEvent where
  src_path : String
  is_directory : Bool
deriving DecidableEq

/-- `FileHandler.on_modified(event)` (src/src/file_handler.py,
lines 110-118): handle the event unless it is for a directory. -/
def on_modified (st : List String) (ev : FileEvent) (env : CopyEnv) :
    List String × List FsAction × Option String :=
  if ev.is_directory then (st, [], none) else handleFileEvent st ev.src_path env

/-- The two event kinds the watchdog observer delivers for file changes. -/
inductive EventKind where
  | created
  | modified
deriving DecidableEq

/-- Event dispatch for the modular handler (src/src/file_handler.py): the
class overrides only `on_modified`; a `created` event reaches watchdog's base
`FileSystemEventHandler.on_created`, which is a no-op. -/
def dispatchModular (k : EventKind) (st : List String) (ev : FileEvent) (env : CopyEnv) :
    List String × List FsAction × Option String :=
  match k with
  | EventKind.created => (st, [], none)
  | EventKind.modified => on_modified st ev env

/-- `FileHandler.on_created(event)` of the legacy duplicate
(src/file_copier.py, lines 114-116): identical dispatch to `on_modified`.
Its `_handle_file_event` is textually identical to the modular one; its
`_copy_file` differs only inside the copy step (`shutil.copy2` instead of
the chunked `copy_with_progress`), which does not affect the dispatch and
in-flight-set behaviour modelled here. -/
def on_created_legacy (st : List String) (ev : FileEvent) (env : CopyEnv) :
    List String × List FsAction × Option String :=
  if ev.is_directory then (st, [], none) else handleFileEvent st ev.src_path env

/-- Event dispatch for the legacy handler (src/file_copier.py): both
`on_created` and `on_modified` are overridden and handle the event. -/
def dispatchLegacy (k : EventKind) (st : List String) (ev : FileEvent) (env : CopyEnv) :
    List String × List FsAction × Option String :=
  match k with
  | EventKind.created => on_created_legacy st ev env
  | EventKind.modified => on_modified st ev env

/-- Actions that mutate the in-flight set `processing_files`. -/
def isSetOp : FsAction → Bool
  | FsAction.insert _ => true
  | FsAction.remove _ => true
  | _ => false

theorem copyChunksActs_setOpFree (cs : Nat) (l : List Nat) (c : Nat) :
    ∀ a ∈ copyChunksActs cs l c, isSetOp a = false := by
  induction l, c using copyChunksActs.induct cs with
  | case1 l c h =>
    rw [copyChunksActs, if_pos h]
    simp
  | case2 l c h ih =>
    rw [copyChunksActs, if_neg h]
    intro a ha
    rcases List.mem_cons.mp ha with rfl | ha
    · rfl
    rcases List.mem_cons.mp ha with rfl | ha
    · rfl
    exact ih a ha

theorem copyBody_setOpFree (env : CopyEnv) (p : String) :
    ∀ a ∈ (copyBody env p).1, isSetOp a = false := by
  unfold copyBody
  repeat' split
  all_goals intro a ha
  all_goals
    try simp only [copy_with_progress, List.mem_append, List.mem_cons,
      List.not_mem_nil, List.mem_singleton, or_false, false_or] at ha
  all_goals repeat' rcases ha with ha | ha
  all_goals
    first
      | rfl
      | exact copyChunksActs_setOpFree 8192 env.content 0 a ha
      | exact copyChunksActs_setOpFree 8192 env.content 0 a (List.mem_of_mem_take ha)

theorem copyFile_setOpFree (env : CopyEnv) (p : String) :
    ∀ a ∈ (copyFile env p).1, isSetOp a = false := by
  unfold copyFile
  rcases hb : copyBody env p with ⟨acts, exn⟩
  have hacts : ∀ a ∈ acts, isSetOp a = false := by
    intro a ha
    have := copyBody_setOpFree env p a
    rw [hb] at this
    exact this ha
  rcases exn with _ | e
  · exact hacts
  · intro a ha
    rcases List.mem_append.mp ha with ha | ha
    · exact hacts a ha
    · rcases List.mem_singleton.mp ha with rfl
      rfl

theorem copyFile_no_exception (env : CopyEnv) (p : String) :
    (copyFile env p).2 = none := by
  unfold copyFile
  rcases hb : copyBody env p with ⟨acts, exn⟩
  rcases exn with _ | e <;> rfl

/-- State of the `FileMonitor` instance (src/src/file_monitor.py).
Observers are identified by the `Nat` drawn from `nextObsId` when an
`Observer()` is constructed; `observer` mirrors `self.observer` (the
currently held observer object, or `None`). -/
structure MonitorState where
  base_source_dir : String
  observer : Option Nat
  current_source_dir : Option String
  running : Bool
  menu_active : Bool
  nextObsId : Nat
deriving DecidableEq

/-- Observable side effects of the `FileMonitor` methods: observer lifecycle
calls (`observer.stop()`, `observer.join()`, `Observer()` construction,
`observer.schedule(...)`, `observer.start()`), the blocking folder prompt,
console/log output, and the menu being printed. -/
inductive MonAction where
  | stopObs (i : Nat)
  | joinObs (i : Nat)
  | promptFolder
  | newObserver (i : Nat)
  | scheduleObs (i : Nat) (dir : String)
  | startObs (i : Nat)
  | logDirMissing (d : String)
  | logMonitoringStarted (d : String)
  | logStopped
  | menuShown
deriving DecidableEq

/-- `FileMonitor.start_monitoring` (src/src/file_monitor.py, lines 82-108):
if `current_source_dir` is unset or does not exist, report the error and do
not start; otherwise construct a `FileHandler` and an `Observer`, schedule it
non-recursively on the source directory, start it, and log.  `dirExists`
supplies the result of `self.current_source_dir.exists()`.  The `try` block
around observer construction is modelled as non-raising (`Observer.start`
failures are outside the claims considered). -/
def start_monitoring (st : MonitorState) (dirExists : Bool) : MonitorState × List MonAction :=
  match st.current_source_dir with
  | none => (st, [MonAction.logDirMissing "None"])
  | some d =>
    if dirExists then
      ({st with observer := some st.nextObsId, nextObsId := st.nextObsId + 1},
        [MonAction.newObserver st.nextObsId, MonAction.scheduleObs st.nextObsId d,
          MonAction.startObs st.nextObsId, MonAction.logMonitoringStarted d])
    else (st, [MonAction.logDirMissing d])

/-- `FileMonitor.change_source_folder` (src/src/file_monitor.py,
lines 68-80): if an observer is held, stop it and join it (blocking);
then prompt for a folder name (`get_valid_folder_name()`, which can itself
raise, e.g. on closed stdin — modelled by `promptResult = .error`), set
`current_source_dir := base_source_dir / folder_name`, and call
`start_monitoring`.  Returns the new state, the action trace, and the
exception escaping the method, if any. -/
def change_source_folder (st : MonitorState) (promptResult : Except String String)
    (dirExists : Bool) : MonitorState × List MonAction × Option String :=
  let stopActs : List MonAction :=
    match st.observer with
    | some i => [MonAction.stopObs i, MonAction.joinObs i]
    | none => []
  match promptResult with
  | Except.error e => (st, stopActs ++ [MonAction.promptFolder], some e)
  | Except.ok name =>
    let st2 := {st with current_source_dir := some (st.base_source_dir ++ "/" ++ name)}
    match start_monitoring st2 dirExists with
    | (st3, acts3) => (st3, stopActs ++ [MonAction.promptFolder] ++ acts3, none)

/-- `FileMonitor.stop` (src/src/file_monitor.py, lines 110-117): clear the
`running` flag, and if an observer is held, stop it, log, and join it
(blocking until the watch thread has exited). -/
def FileMonitor.stop (st : MonitorState) : MonitorState × List MonAction :=
  match st.observer with
  | some i => ({st with running := false}, [MonAction.stopObs i, MonAction.logStopped, MonAction.joinObs i])
  | none => ({st with running := false}, [])

/-- Environment for one `FileMonitor.show_menu` call: whether the
`input(...)` for the menu choice raises, the choice string entered, and the
parameters of a possible `change_source_folder` call (its prompt outcome and
whether the chosen directory exists). -/
structure MenuEnv where
  inputRaises : Option String
  choice : String
  promptResult : Except String String
  dirExists : Bool

/-- `FileMonitor.show_menu` (src/src/file_monitor.py, lines 45-66): if
`menu_active` is already set, return immediately; otherwise set it, and in a
`try` block print the menu, read the choice (which can raise), and dispatch
to `change_source_folder` ("1") or `stop` ("2"); the `finally` block resets
`menu_active` to `False` on every exit, including exceptional ones, after
which any exception propagates to the caller.  Returns the new state, the
action trace, and the escaping exception. -/
def show_menu (st : MonitorState) (env : MenuEnv) : MonitorState × List MonAction × Option String :=
  if st.menu_active then (st, [], none)
  else
    let st1 := {st with menu_active := true}
    let body : MonitorState × List MonAction × Option String :=
      match env.inputRaises with
      | some e => (st1, [], some e)
      | none =>
        if env.choice = "1" then change_source_folder st1 env.promptResult env.dirExists
        else if env.choice = "2" then
          match FileMonitor.stop st1 with
          | (s, a) => (s, a, none)
        else (st1, [], none)
    ({body.1 with menu_active := false}, MonAction.menuShown :: body.2.1, body.2.2)

/-- One step of the observer-aliveness bookkeeping: `observer.start()` adds a
live watch thread, `observer.join()` marks it fully exited. -/
def obsStep (alive : List Nat) : MonAction → List Nat
  | MonAction.joinObs i => alive.erase i
  | MonAction.startObs i => i :: alive
  | _ => alive

/-- `atMostOneAlive alive acts` holds when, starting from the watch threads
in `alive`, at every point of the action sequence at most one watch thread
is live — i.e. no two watch sessions ever run concurrently. -/
def atMostOneAlive (alive : List Nat) : List MonAction → Bool
  | [] => decide (alive.length ≤ 1)
  | a :: rest => decide (alive.length ≤ 1) && atMostOneAlive (obsStep alive a) rest

/-- Position of one event-handling thread inside
`FileHandler._handle_file_event`:
`ready` — about to run the membership test `source_path in processing_files`;
`observedAbsent` — the test returned false, about to run `.add`;
`copying` — the path was added, `_copy_file` running;
`finished` — the `finally` removed the path and the handler returned;
`droppedEvt` — the test returned true and the handler returned at once. -/
inductive ThreadPhase where
  | ready
  | observedAbsent
  | copying
  | finished
  | droppedEvt
deriving DecidableEq

/-- One atomic step of a handler thread for path `p` against the shared
`processing_files` set.  The steps mirror the statement granularity of the
source: the `in` test, the `.add`, and (collapsed into one step) the copy
followed by the `finally` `.remove` — CPython may switch threads between any
two of these statements, and the code takes no lock around them. -/
def stepThread (s : List String) (pc : ThreadPhase) (p : String) : List String × ThreadPhase :=
  match pc with
  | ThreadPhase.ready =>
    if p ∈ s then (s, ThreadPhase.droppedEvt) else (s, ThreadPhase.observedAbsent)
  | ThreadPhase.observedAbsent => (p :: s, ThreadPhase.copying)
  | ThreadPhase.copying => (s.erase p, ThreadPhase.finished)
  | pc => (s, pc)

/-- Two concurrent deliveries of an event for the same path: the shared
in-flight set and each thread's position. -/
structure TwoThreads where
  inflight : List String
  pc0 : ThreadPhase
  pc1 : ThreadPhase
deriving DecidableEq

/-- Advance the thread selected by `which` (false = thread 0). -/
def stepSys (sys : TwoThreads) (p : String) (which : Bool) : TwoThreads :=
  if which then
    match stepThread sys.inflight sys.pc1 p with
    | (s, pc) => {sys with inflight := s, pc1 := pc}
  else
    match stepThread sys.inflight sys.pc0 p with
    | (s, pc) => {sys with inflight := s, pc0 := pc}

/-- Run a schedule (a list of thread choices) from a system state. -/
def runSched (p : String) : List Bool → TwoThreads → TwoThreads
  | [], sys => sys
  | b :: rest, sys => runSched p rest (stepSys sys p b)

/-- A thread has "proceeded" when its membership test observed the path
absent and it went on to handle the event (rather than dropping it). -/
def proceeded : ThreadPhase → Bool
  | ThreadPhase.observedAbsent => true
  | ThreadPhase.copying => true
  | ThreadPhase.finished => true
  | _ => false

/-- `^\d{2}-\d{2}$` under CPython `re.match` semantics, as executed by
`validate_folder_name` (src/src/utils.py, lines 44-75): `re.match` anchors at
the start, `\d{2}-\d{2}` consumes five characters, and `$` matches at the end
of the string or immediately before a trailing newline — so a match succeeds
exactly on two digits, a hyphen and two digits, optionally followed by one
final newline.  `\d` is modelled as an ASCII decimal digit (Python's `\d`
additionally matches non-ASCII decimal digits; every string considered by the
claims is ASCII). -/
def reMatchFolderPattern (s : String) : Bool :=
  match s.data with
  | [a, b, h, c, d] => a.isDigit && b.isDigit && (h = '-') && c.isDigit && d.isDigit
  | [a, b, h, c, d, nl] =>
    a.isDigit && b.isDigit && (h = '-') && c.isDigit && d.isDigit && (nl = '\n')
  | _ => false

/-- `validate_folder_name(folder_name)` (src/src/utils.py, lines 44-75):
raise `ValidationError` when the pattern does not match, return `True`
otherwise. -/
def validate_folder_name (folder_name : String) : Except String Bool :=
  if reMatchFolderPattern folder_name then Except.ok true
  else Except.error "Folder name must be in format XX-XX (e.g., 01-04)"

/-- The claim's pattern `^\d{2}-\d{2}$` read as an exact full-string match:
exactly two ASCII digits, a hyphen, and two ASCII digits, nothing else. -/
def specFolderPattern (s : String) : Bool :=
  match s.data with
  | [a, b, h, c, d] => a.isDigit && b.isDigit && (h = '-') && c.isDigit && d.isDigit
  | _ => false

/-- Python `str.strip()`: drop leading and trailing whitespace (modelled for
ASCII whitespace, which covers every input the claims consider). -/
def pyStrip (s : String) : String :=
  String.mk (((s.data.dropWhile Char.isWhitespace).reverse.dropWhile Char.isWhitespace).reverse)

/-- `get_valid_folder_name()` (src/src/utils.py) over a queue of operator
inputs: read a line, `.strip()` it, validate; on `ValidationError` print the
error and re-prompt.  Returns the accepted name and the number of rejected
attempts before it, or `none` when the queue is exhausted (the real loop
would keep blocking on `input()`). -/
def get_valid_folder_name : List String → Option (String × Nat)
  | [] => none
  | i :: rest =>
    match validate_folder_name (pyStrip i) with
    | Except.ok _ => some (pyStrip i, 0)
    | Except.error _ =>
      match get_valid_folder_name rest with
      | some (r, n) => some (r, n + 1)
      | none => none


theorem handleFileEvent_not_mem (st : List String) (p : String) (env : CopyEnv)
    (hout : p ∉ st) :
    handleFileEvent st p env =
      (st, FsAction.insert p :: (copyFile env p).1 ++ [FsAction.remove p],
        (copyFile env p).2) := by
  rw [handleFileEvent, if_neg hout]
  rw [List.erase_cons_head]

/-- A sample environment: the second stat sees a different size (an unstable
file), so `_copy_file` returns without copying. -/
def envUnstable : CopyEnv :=
  { now := "01:02:03 PM", mkdirFail := none, stat1 := Except.ok 5, stat2 := Except.ok 7,
    content := [], copyFail := none, copystatFail := none }

/-- A sample environment: `destination_dir.mkdir` raises. -/
def envMkdirFail : CopyEnv :=
  { now := "01:02:03 PM", mkdirFail := some "disk full", stat1 := Except.ok 5,
    stat2 := Except.ok 5, content := [], copyFail := none, copystatFail := none }

/-- Claim C1: for every file-event delivery on a non-directory path, if the
path is already in the processing set the event is dropped with no other
effect; otherwise the path is inserted into the set before any file I/O
begins (the trace starts with the insertion, and nothing else in the handling
touches the set) and is removed exactly once, as the final action, on every
exit of the handling — for every environment, i.e. successful copy,
unstable-return, or exception — so the set is restored and a subsequent
independent event for the same path is processed, not dropped. -/
theorem c1_inflight_set_discipline (st : List String) (p : String) (env : CopyEnv) :
    (p ∈ st → handleFileEvent st p env = (st, [], none)) ∧
    (p ∉ st →
      (handleFileEvent st p env).1 = st ∧
      (∃ body, (handleFileEvent st p env).2.1 =
          FsAction.insert p :: body ++ [FsAction.remove p] ∧
          ∀ a ∈ body, isSetOp a = false) ∧
      (∀ env2, (handleFileEvent (handleFileEvent st p env).1 p env2).2.1.head? =
        some (FsAction.insert p))) := by
  constructor
  · intro hin
    rw [handleFileEvent, if_pos hin]
  · intro hout
    have hres := handleFileEvent_not_mem st p env hout
    refine ⟨by rw [hres], ⟨(copyFile env p).1, by rw [hres], copyFile_setOpFree env p⟩, ?_⟩
    intro env2
    rw [hres]
    simp only
    rw [handleFileEvent_not_mem st p env2 hout]
    rfl

theorem c1_witness :
    handleFileEvent ["d/a.png"] "d/a.png" envUnstable = (["d/a.png"], [], none) ∧
    (handleFileEvent [] "d/a.png" envUnstable).1 = [] ∧
    (handleFileEvent (handleFileEvent [] "d/a.png" envUnstable).1 "d/a.png" envMkdirFail).2.1.head? =
      some (FsAction.insert "d/a.png") := by
  refine ⟨?_, ?_, ?_⟩
  · exact (c1_inflight_set_discipline ["d/a.png"] "d/a.png" envUnstable).1 (by simp)
  · exact ((c1_inflight_set_discipline [] "d/a.png" envUnstable).2 (by simp)).1
  · exact ((c1_inflight_set_discipline [] "d/a.png" envUnstable).2 (by simp)).2.2 envMkdirFail

theorem copyBody_unstable (env : CopyEnv) (p : String) (s1 s2 : Nat)
    (hmk : env.mkdirFail = none) (h1 : env.stat1 = Except.ok s1)
    (h2 : env.stat2 = Except.ok s2) (hne : s1 ≠ s2) :
    copyBody env p =
      ([FsAction.mkdirDest, FsAction.statSize s1, FsAction.statSize s2], none) := by
  unfold copyBody
  rw [hmk, h1, h2]
  simp [hne]

/-- Claim C3: whenever the size observed before the 0.5 s delay differs from
the size observed after it (and the surrounding steps did not raise), the
handler judges the file unstable and returns without copying: the trace is
exactly insert, mkdir, the two stats, remove — so no bytes are written to the
destination, no success is logged — the in-flight marker is released, and a
later modification event for the same path is processed again. -/
theorem c3_unstable_no_copy (st : List String) (p : String) (env : CopyEnv) (s1 s2 : Nat)
    (hmk : env.mkdirFail = none) (h1 : env.stat1 = Except.ok s1)
    (h2 : env.stat2 = Except.ok s2) (hne : s1 ≠ s2) (hout : p ∉ st) :
    handleFileEvent st p env =
      (st, [FsAction.insert p, FsAction.mkdirDest, FsAction.statSize s1,
        FsAction.statSize s2, FsAction.remove p], none) ∧
    (∀ c, FsAction.writeChunk c ∉ (handleFileEvent st p env).2.1) ∧
    (∀ t n, FsAction.logSuccess t n ∉ (handleFileEvent st p env).2.1) ∧
    (handleFileEvent st p env).1 = st ∧
    (∀ env2, (handleFileEvent (handleFileEvent st p env).1 p env2).2.1.head? =
      some (FsAction.insert p)) := by
  have hcf : copyFile env p =
      ([FsAction.mkdirDest, FsAction.statSize s1, FsAction.statSize s2], none) := by
    unfold copyFile
    rw [copyBody_unstable env p s1 s2 hmk h1 h2 hne]
  have hres := handleFileEvent_not_mem st p env hout
  rw [hcf] at hres
  have htrace : handleFileEvent st p env =
      (st, [FsAction.insert p, FsAction.mkdirDest, FsAction.statSize s1,
        FsAction.statSize s2, FsAction.remove p], none) := by
    rw [hres]
    rfl
  refine ⟨htrace, ?_, ?_, by rw [htrace], ?_⟩
  · intro c
    rw [htrace]
    simp
  · intro t n
    rw [htrace]
    simp
  · intro env2
    rw [htrace]
    simp only
    rw [handleFileEvent_not_mem st p env2 hout]
    rfl

theorem c3_witness :
    handleFileEvent [] "d/a.png" envUnstable =
      ([], [FsAction.insert "d/a.png", FsAction.mkdirDest, FsAction.statSize 5,
        FsAction.statSize 7, FsAction.remove "d/a.png"], none) ∧
    (∀ c, FsAction.writeChunk c ∉ (handleFileEvent [] "d/a.png" envUnstable).2.1) := by
  have h := c3_unstable_no_copy [] "d/a.png" envUnstable 5 7 rfl rfl rfl (by decide) (by simp)
  exact ⟨h.1, h.2.1⟩

/-- Claim C5: every exception raised inside the `try` block of `_copy_file`
(mkdir, stat, read/write, metadata propagation) is caught there: the error is
logged with the timestamp, the file name and the error text, no exception
escapes the event handler, the in-flight marker is released (the set returns
to its initial value), and a subsequent event for any path not in that set is
processed normally. -/
theorem c5_copy_error_isolated (st : List String) (p : String) (env : CopyEnv)
    (acts : List FsAction) (e : String)
    (hb : copyBody env p = (acts, some e)) (hout : p ∉ st) :
    (handleFileEvent st p env).2.2 = none ∧
    FsAction.logError env.now (fileName p) e ∈ (handleFileEvent st p env).2.1 ∧
    (handleFileEvent st p env).1 = st ∧
    (∀ q env2, q ∉ st →
      (handleFileEvent (handleFileEvent st p env).1 q env2).2.1.head? =
        some (FsAction.insert q)) := by
  have hcf : copyFile env p =
      (acts ++ [FsAction.logError env.now (fileName p) e], none) := by
    unfold copyFile
    rw [hb]
  have hres := handleFileEvent_not_mem st p env hout
  rw [hcf] at hres
  refine ⟨by rw [hres], ?_, by rw [hres], ?_⟩
  · rw [hres]
    simp
  · intro q env2 hq
    rw [hres]
    simp only
    rw [handleFileEvent_not_mem st q env2 hq]
    rfl

theorem c5_witness :
    (handleFileEvent [] "d/a.png" envMkdirFail).2.2 = none ∧
    FsAction.logError envMkdirFail.now (fileName "d/a.png") "disk full" ∈
      (handleFileEvent [] "d/a.png" envMkdirFail).2.1 ∧
    (handleFileEvent [] "d/a.png" envMkdirFail).1 = [] ∧
    (handleFileEvent (handleFileEvent [] "d/a.png" envMkdirFail).1 "d/b.png" envUnstable).2.1.head? =
      some (FsAction.insert "d/b.png") := by
  have h := c5_copy_error_isolated [] "d/a.png" envMkdirFail [] "disk full" rfl (by simp)
  exact ⟨h.1, h.2.1, h.2.2.1, h.2.2.2 "d/b.png" envUnstable (by simp)⟩

/-- Claim C6 (code bug): the modular handler `src/src/file_handler.py`
defines no `on_created`, so a `created` notification for a new non-directory
file falls through to watchdog's base-class no-op and is dropped — it does
not trigger the de-duplication/stability/copy path, although a `modified`
notification for the same path does, and the legacy handler in
`src/file_copier.py` processes `created` exactly like `modified`. -/
theorem c6_created_event_dropped :
    dispatchModular EventKind.created [] ⟨"watch/new.png", false⟩ envUnstable =
      ([], [], none) ∧
    (dispatchModular EventKind.modified [] ⟨"watch/new.png", false⟩ envUnstable).2.1.head? =
      some (FsAction.insert "watch/new.png") ∧
    (dispatchLegacy EventKind.created [] ⟨"watch/new.png", false⟩ envUnstable).2.1.head? =
      some (FsAction.insert "watch/new.png") := by
  refine ⟨rfl, ?_, ?_⟩
  · show (on_modified [] ⟨"watch/new.png", false⟩ envUnstable).2.1.head? = _
    rw [on_modified, if_neg (by simp)]
    rw [handleFileEvent_not_mem [] "watch/new.png" envUnstable (by simp)]
    rfl
  · show (on_created_legacy [] ⟨"watch/new.png", false⟩ envUnstable).2.1.head? = _
    rw [on_created_legacy, if_neg (by simp)]
    rw [handleFileEvent_not_mem [] "watch/new.png" envUnstable (by simp)]
    rfl

/-- Claim C4: `copy_with_progress` streams the source in fixed-size 8 KiB
chunks — the written chunks concatenate back to exactly the source content
(so on success the destination equals the source), and their sizes are full
8192-byte chunks followed by one final short chunk — reports the cumulative
byte count after each chunk, and performs the metadata propagation
(`shutil.copystat`) as the single final action, strictly after every write. -/
theorem c4_copy_engine_streams (content : List Nat) :
    (writesOf (copy_with_progress content)).flatten = content ∧
    (writesOf (copy_with_progress content)).map List.length =
      chunkLengths 8192 content.length ∧
    reportsOf (copy_with_progress content) =
      expectedReports (writesOf (copy_with_progress content)) 0 ∧
    copy_with_progress content = copyChunksActs 8192 content 0 ++ [FsAction.copystat] ∧
    FsAction.copystat ∉ copyChunksActs 8192 content 0 := by
  have hw : writesOf (copy_with_progress content) = writesOf (copyChunksActs 8192 content 0) := by
    rw [copy_with_progress, writesOf, writesOf, List.filterMap_append]
    simp
  have hr : reportsOf (copy_with_progress content) = reportsOf (copyChunksActs 8192 content 0) := by
    rw [copy_with_progress, reportsOf, reportsOf, List.filterMap_append]
    simp
  refine ⟨?_, ?_, ?_, rfl, copystat_not_mem_copyChunksActs 8192 content 0⟩
  · rw [hw]
    exact writesOf_copyChunksActs_flatten 8192 (by omega) content 0
  · rw [hw]
    exact writesOf_copyChunksActs_lengths 8192 (by omega) content 0
  · rw [hw, hr]
    exact reportsOf_copyChunksActs 8192 content 0

/-- Claim C10: for a zero-byte source file, `copy_with_progress` terminates
normally with an empty destination (no chunks written) and the progress
callback `ProgressBar.update` is never invoked, so its division by
`total_size` never runs with `total_size = 0`; moreover for every source
content the run succeeds, so no `ZeroDivisionError` is reachable through
`copy_with_progress` at all. -/
theorem c10_zero_byte_no_div_by_zero :
    copy_with_progress_run [] = Except.ok ([], []) ∧
    (∀ content : List Nat, ∃ r, copy_with_progress_run content = Except.ok r) := by
  constructor
  · rw [copy_with_progress_run, copyLoopRun]
    simp
  · intro content
    rcases content with _ | ⟨b, rest⟩
    · rw [copy_with_progress_run, copyLoopRun]
      simp
    · exact copyLoopRun_ok (b :: rest).length 8192 (by simp) (b :: rest) 0

/-- Counterexample to claim C2: the membership check and the insertion are
separate steps with no lock, so under the interleaving where both threads run
their membership test before either runs `.add` (schedule thread 0, thread 1,
thread 0, thread 1 from an empty in-flight set), both observe the path absent
and both proceed — after four steps both threads are simultaneously in the
copying phase for the same path. -/
theorem c2_counterexample :
    proceeded (runSched "f.png" [false, true]
      ⟨[], ThreadPhase.ready, ThreadPhase.ready⟩).pc0 = true ∧
    proceeded (runSched "f.png" [false, true]
      ⟨[], ThreadPhase.ready, ThreadPhase.ready⟩).pc1 = true ∧
    (runSched "f.png" [false, true, false, true]
      ⟨[], ThreadPhase.ready, ThreadPhase.ready⟩).pc0 = ThreadPhase.copying ∧
    (runSched "f.png" [false, true, false, true]
      ⟨[], ThreadPhase.ready, ThreadPhase.ready⟩).pc1 = ThreadPhase.copying := by
  refine ⟨rfl, rfl, rfl, rfl⟩

/-- Claim C2 as amended: the check and the insert are two separate,
unsynchronized steps, so atomicity fails when the two checks interleave
before either insert; what the code does guarantee is that once the path is
in the in-flight set — in particular after one delivery's check-and-insert
has completed, as when deliveries are serialized by the observer's single
dispatch thread — a later membership test for the same path observes it
present and that event is dropped. -/
theorem c2_check_insert_not_atomic (s : List String) (p : String) (h : p ∈ s) :
    stepThread s ThreadPhase.ready p = (s, ThreadPhase.droppedEvt) ∧
    (runSched p [false, false, true]
      ⟨[], ThreadPhase.ready, ThreadPhase.ready⟩).pc1 = ThreadPhase.droppedEvt ∧
    (runSched p [false, false, true]
      ⟨[], ThreadPhase.ready, ThreadPhase.ready⟩).pc0 = ThreadPhase.copying := by
  refine ⟨?_, ?_, ?_⟩
  · rw [stepThread, if_pos h]
  · simp [runSched, stepSys, stepThread]
  · simp [runSched, stepSys, stepThread]

theorem c2_witness :
    stepThread ["g.png"] ThreadPhase.ready "g.png" = (["g.png"], ThreadPhase.droppedEvt) ∧
    (runSched "g.png" [false, false, true]
      ⟨[], ThreadPhase.ready, ThreadPhase.ready⟩).pc1 = ThreadPhase.droppedEvt := by
  have h := c2_check_insert_not_atomic ["g.png"] "g.png" (by simp)
  exact ⟨h.1, h.2.1⟩

/-- Claim C7: when a new watch session is started while one is active,
`change_source_folder` first stops and then joins the existing observer —
these are the first two actions of the trace, before the new observer is
constructed and started — and, counting `startObs` as a live watch thread
and `joinObs` as its full exit, at every point of the trace at most one
watch thread is alive, so no callbacks from two sessions can interleave;
when the prompt succeeds and the new directory exists, the fresh observer
(id `st.nextObsId`) is indeed started afterwards. -/
theorem c7_session_switch_joins_first (st : MonitorState)
    (promptResult : Except String String) (dirExists : Bool) (old : Nat)
    (h : st.observer = some old) :
    (∃ rest, (change_source_folder st promptResult dirExists).2.1 =
        MonAction.stopObs old :: MonAction.joinObs old :: rest) ∧
    atMostOneAlive [old] (change_source_folder st promptResult dirExists).2.1 = true ∧
    (∀ name, promptResult = Except.ok name → dirExists = true →
      MonAction.startObs st.nextObsId ∈ (change_source_folder st promptResult dirExists).2.1) := by
  rcases promptResult with e | name
  · have htr : (change_source_folder st (Except.error e) dirExists).2.1 =
        [MonAction.stopObs old, MonAction.joinObs old, MonAction.promptFolder] := by
      rw [change_source_folder, h]
      rfl
    refine ⟨⟨[MonAction.promptFolder], htr⟩, ?_, by intro name hn; exact absurd hn (by simp)⟩
    rw [htr]
    simp [atMostOneAlive, obsStep]
  · rcases dirExists with _ | _
    · have htr : (change_source_folder st (Except.ok name) false).2.1 =
          [MonAction.stopObs old, MonAction.joinObs old, MonAction.promptFolder,
            MonAction.logDirMissing (st.base_source_dir ++ "/" ++ name)] := by
        rw [change_source_folder, h, start_monitoring]
        rfl
      refine ⟨⟨_, htr⟩, ?_, by intro n hn hfalse; exact absurd hfalse (by simp)⟩
      rw [htr]
      simp [atMostOneAlive, obsStep]
    · have htr : (change_source_folder st (Except.ok name) true).2.1 =
          [MonAction.stopObs old, MonAction.joinObs old, MonAction.promptFolder,
            MonAction.newObserver st.nextObsId,
            MonAction.scheduleObs st.nextObsId (st.base_source_dir ++ "/" ++ name),
            MonAction.startObs st.nextObsId,
            MonAction.logMonitoringStarted (st.base_source_dir ++ "/" ++ name)] := by
        rw [change_source_folder, h, start_monitoring]
        rfl
      refine ⟨⟨_, htr⟩, ?_, ?_⟩
      · rw [htr]
        simp [atMostOneAlive, obsStep]
      · intro n hn htrue
        rw [htr]
        simp

theorem c7_witness :
    (∃ rest, (change_source_folder
        { base_source_dir := "base", observer := some 0, current_source_dir := some "base/01-04",
          running := true, menu_active := false, nextObsId := 1 }
        (Except.ok "01-05") true).2.1 =
      MonAction.stopObs 0 :: MonAction.joinObs 0 :: rest) ∧
    atMostOneAlive [0] (change_source_folder
        { base_source_dir := "base", observer := some 0, current_source_dir := some "base/01-04",
          running := true, menu_active := false, nextObsId := 1 }
        (Except.ok "01-05") true).2.1 = true ∧
    MonAction.startObs 1 ∈ (change_source_folder
        { base_source_dir := "base", observer := some 0, current_source_dir := some "base/01-04",
          running := true, menu_active := false, nextObsId := 1 }
        (Except.ok "01-05") true).2.1 := by
  have h := c7_session_switch_joins_first
    { base_source_dir := "base", observer := some 0, current_source_dir := some "base/01-04",
      running := true, menu_active := false, nextObsId := 1 }
    (Except.ok "01-05") true 0 rfl
  exact ⟨h.1, h.2.1, h.2.2 "01-05" rfl rfl⟩

/-- Claim C9: a menu-open signal arriving while `menu_active` is already set
is a no-op — `show_menu` returns at once with no state change, no output and
no exception — and on every exit of a real menu interaction, for every
environment (any choice, any exceptional exit of the chosen action or of the
choice prompt), the `finally` block resets `menu_active` to `false`, so a
later menu signal is processed (its trace starts by showing the menu). -/
theorem c9_menu_reentrancy_guard (st : MonitorState) (env : MenuEnv) :
    (st.menu_active = true → show_menu st env = (st, [], none)) ∧
    (st.menu_active = false →
      (show_menu st env).1.menu_active = false ∧
      (show_menu st env).2.1.head? = some MonAction.menuShown ∧
      (∀ env2, (show_menu (show_menu st env).1 env2).2.1.head? =
        some MonAction.menuShown)) := by
  constructor
  · intro hin
    rw [show_menu, if_pos hin]
  · intro hout
    have hmain : ∀ (st' : MonitorState), st'.menu_active = false →
        (show_menu st' env).1.menu_active = false ∧
        ∀ env' : MenuEnv, (show_menu st' env').2.1.head? = some MonAction.menuShown := by
      intro st' h'
      constructor
      · rw [show_menu, if_neg (by simp [h'])]
      · intro env'
        rw [show_menu, if_neg (by simp [h'])]
        rfl
    refine ⟨(hmain st hout).1, (hmain st hout).2 env, ?_⟩
    intro env2
    exact (hmain (show_menu st env).1 (hmain st hout).1).2 env2

/-- A sample monitor state: one observer held, menu not open. -/
def stSample : MonitorState :=
  { base_source_dir := "base", observer := some 0, current_source_dir := some "base/01-04",
    running := true, menu_active := false, nextObsId := 1 }

theorem c9_witness :
    show_menu {stSample with menu_active := true}
      { inputRaises := none, choice := "2", promptResult := Except.ok "01-05", dirExists := true } =
      ({stSample with menu_active := true}, [], none) ∧
    (show_menu stSample
      { inputRaises := some "EOFError", choice := "", promptResult := Except.ok "01-05",
        dirExists := true }).1.menu_active = false := by
  constructor
  · exact (c9_menu_reentrancy_guard _ _).1 rfl
  · exact ((c9_menu_reentrancy_guard _
      { inputRaises := some "EOFError", choice := "", promptResult := Except.ok "01-05",
        dirExists := true }).2 rfl).1

theorem validate_ok_iff (s : String) :
    validate_folder_name s = Except.ok true ↔ reMatchFolderPattern s = true := by
  rw [validate_folder_name]
  by_cases h : reMatchFolderPattern s
  · simp [h]
  · simp [h]

/-- Counterexample to claim C8: validation does not accept *exactly* the
full-string matches of `^\d{2}-\d{2}$` — because CPython's `$` also matches
immediately before a trailing newline, `validate_folder_name` accepts
`"01-04\n"`, which is not a full-string match of the pattern. -/
theorem c8_counterexample :
    validate_folder_name "01-04\n" = Except.ok true ∧
    specFolderPattern "01-04\n" = false := by
  exact ⟨rfl, rfl⟩

/-- Claim C8 as amended: `validate_folder_name` accepts exactly the strings
matching `^\d{2}-\d{2}$` under CPython `re.match` semantics — two digits, a
hyphen, two digits, optionally followed by one trailing newline (`$` matches
there too).  All of the claim's examples behave as stated: `"01-04"` is
accepted, while `"1-04"`, `"01-4"`, `"ab-04"`, `"01_04"` and `""` each raise
`ValidationError`, and `get_valid_folder_name` re-prompts past all five
rejected inputs until the valid `"01-04"` is supplied. -/
theorem c8_validation_characterized :
    (∀ s : String, validate_folder_name s = Except.ok true ↔
      ((∃ a b c d : Char, s.data = [a, b, '-', c, d] ∧
          a.isDigit ∧ b.isDigit ∧ c.isDigit ∧ d.isDigit) ∨
       (∃ a b c d : Char, s.data = [a, b, '-', c, d, '\n'] ∧
          a.isDigit ∧ b.isDigit ∧ c.isDigit ∧ d.isDigit))) ∧
    validate_folder_name "01-04" = Except.ok true ∧
    validate_folder_name "1-04" =
      Except.error "Folder name must be in format XX-XX (e.g., 01-04)" ∧
    validate_folder_name "01-4" =
      Except.error "Folder name must be in format XX-XX (e.g., 01-04)" ∧
    validate_folder_name "ab-04" =
      Except.error "Folder name must be in format XX-XX (e.g., 01-04)" ∧
    validate_folder_name "01_04" =
      Except.error "Folder name must be in format XX-XX (e.g., 01-04)" ∧
    validate_folder_name "" =
      Except.error "Folder name must be in format XX-XX (e.g., 01-04)" ∧
    get_valid_folder_name ["1-04", "01-4", "ab-04", "01_04", "", "01-04"] =
      some ("01-04", 5) := by
  refine ⟨?_, rfl, rfl, rfl, rfl, rfl, rfl, rfl⟩
  intro s
  rw [validate_ok_iff]
  obtain ⟨l⟩ := s
  rw [reMatchFolderPattern]
  simp only [String.data]
  rcases l with _ | ⟨a, _ | ⟨b, _ | ⟨h, _ | ⟨c, _ | ⟨d, _ | ⟨e, _ | ⟨f, rest⟩⟩⟩⟩⟩⟩⟩ <;>
    simp [List.cons.injEq, and_assoc] <;>
    aesop
